import Mathlib

/-!
Verification of the motor-fault-detection batch pipeline
(Flask app: `app.py`, `backend/spectrograms.py`, `backend/features.py`).

The Python source is shallowly embedded: pure numeric code becomes Lean
functions over `ℚ`; the background batch worker becomes a function from its
inputs to the list of observable `JobStatus` snapshots (one snapshot per
mutation performed under the status lock); calls into external libraries
(librosa, numpy, scipy, matplotlib) are parameters of the embedding, so that
theorems quantify over every possible behaviour of those libraries.
-/

namespace MotorFault

/-! ## Batch Job Controller (`app.py`, `process_batch_files`) -/

/-- Observable fields of one entry of the global `batch_status` dictionary,
as initialised in `handle_batch_upload` and mutated by `process_batch_files`. -/
structure JobStatus where
  status : String
  current_file : Nat
  total_files : Nat
  current_filename : String
  completed_files : List String
  errors : List String
  has_end_time : Bool
  deriving Repr, DecidableEq

/-- One entry of the `file_list` handed to `process_batch_files`, together
with the outcome of the per-file pipeline body (spectrogram generation,
feature extraction and the JSON write): `Except.ok` when the body raises no
exception, `Except.error msg` when it raises an exception whose string form
is `msg`. -/
structure FileInfo where
  original_name : String
  outcome : Except String Unit
  deriving Repr

/-- Error message built in the per-file `except` clause of
`process_batch_files`: `f"Error processing {file_info['original_name']}: {str(e)}"`. -/
def mkErrorMsg (original_name msg : String) : String :=
  "Error processing " ++ original_name ++ ": " ++ msg

/-- Session clearing is polled at the top of every loop iteration
(`if session_id not in batch_status: break`) and again before the final
bookkeeping block. `some k` means the session disappeared from
`batch_status` just before the check at loop index `k`; `none` means it was
never cleared. Once cleared it stays cleared. -/
def clearedBy : Option Nat → Nat → Bool
  | none, _ => false
  | some k, i => decide (k ≤ i)

/-- Loop body of `process_batch_files` from `for i, file_info in
enumerate(file_list)` onwards, producing the list of `batch_status`
snapshots in the order the mutations happen under `batch_lock`:
for each file, first the `current_file := i+1` / `current_filename` update,
then (depending on the pipeline outcome) the `completed_files` append or the
`errors` append; after the last file, the `status := completed` /
`end_time` update. A cleared session breaks the loop and suppresses the
final update. -/
def runBatchLoop (st : JobStatus) (rest : List FileInfo) (i : Nat)
    (c : Option Nat) : List JobStatus :=
  match rest with
  | [] =>
    if clearedBy c i then []
    else [{ st with status := "completed", has_end_time := true }]
  | f :: fs =>
    if clearedBy c i then []
    else
      let st1 := { st with current_file := i + 1,
                           current_filename := f.original_name }
      match f.outcome with
      | Except.ok _ =>
        let st2 := { st1 with
          completed_files := st1.completed_files ++ [f.original_name] }
        st1 :: st2 :: runBatchLoop st2 fs (i + 1) c
      | Except.error msg =>
        let st2 := { st1 with
          errors := st1.errors ++ [mkErrorMsg f.original_name msg] }
        st1 :: st2 :: runBatchLoop st2 fs (i + 1) c

/-- Embedding of `process_batch_files(session_id, file_list)`.
`bookkeeping_ok` is the outcome of the controller-level bookkeeping before
the loop (`os.makedirs(results_dir)`); when it raises, the outer `except`
sets `status := "error"`. The result is the list of status snapshots
written after the initial state `init`. -/
def process_batch_files (init : JobStatus) (files : List FileInfo)
    (bookkeeping_ok : Bool) (c : Option Nat) : List JobStatus :=
  if bookkeeping_ok then runBatchLoop init files 0 c
  else if clearedBy c 0 then []
  else [{ init with status := "error" }]

/-- Initial `batch_status` entry written by `handle_batch_upload`. -/
def initialJobStatus (total : Nat) : JobStatus :=
  { status := "processing", current_file := 0, total_files := total,
    current_filename := "Initializing...", completed_files := [],
    errors := [], has_end_time := false }

/-- Error messages accumulated over a file list, in order. -/
def batchErrors (files : List FileInfo) : List String :=
  files.filterMap fun f =>
    match f.outcome with
    | Except.ok _ => none
    | Except.error msg => some (mkErrorMsg f.original_name msg)

/-- Names of the files whose pipeline body succeeded, in order. -/
def batchCompleted (files : List FileInfo) : List String :=
  files.filterMap fun f =>
    match f.outcome with
    | Except.ok _ => some f.original_name
    | Except.error _ => none

/-! ## Result Aggregator (`app.py`, `handle_batch_results`) -/

/-- What `handle_batch_results` observes on disk for one entry of
`session['files']`: whether the per-file results directory exists, whether
`features.json` exists inside it, and (abstractly) the decoded feature
record and the set of spectrogram kinds whose PNG file exists. -/
structure AggFile where
  original_name : String
  file_id : String
  dir_exists : Bool
  has_features : Bool
  features : List (String × String)
  png_exists : String → Bool

/-- The six spectrogram kinds iterated by the aggregator. -/
def spectrogram_types : List String :=
  ["mel", "cqt", "log_stft", "wavelet", "spectral_kurtosis", "modulation"]

/-- One row of the per-file summary list built by `handle_batch_results`. -/
structure ProcessedFile where
  filename : String
  file_id : String
  spectrograms : List String
  features_count : Nat
  deriving Repr, DecidableEq

/-- Python dict assignment `d[k] = v` on an association list: overwrite in
place when the key is already present (the feature record written by the
pipeline already holds a `filename` key), append otherwise. -/
def dict_insert (m : List (String × String)) (k v : String) :
    List (String × String) :=
  if (m.map Prod.fst).contains k then
    m.map (fun p => if p.1 = k then (k, v) else p)
  else m ++ [(k, v)]

/-- Embedding of the aggregation loop of `handle_batch_results`: returns
(combined_features, processed_files). A file whose directory does not
exist contributes nothing; a file whose directory exists but has no
`features.json` is appended to `processed_files` (with an empty feature
record, `features = \x7b\x7d`) but not to `combined_features`. -/
def handle_batch_results (files : List AggFile) :
    List (List (String × String)) × List ProcessedFile :=
  match files with
  | [] => ([], [])
  | f :: fs =>
    let cf := (handle_batch_results fs).1
    let pf := (handle_batch_results fs).2
    if f.dir_exists then
      let specs := spectrogram_types.filter fun k => f.png_exists k
      let features :=
        if f.has_features then
          dict_insert f.features "filename" f.original_name
        else []
      let cf1 := if f.has_features then features :: cf else cf
      let row : ProcessedFile :=
        { filename := f.original_name, file_id := f.file_id,
          spectrograms := specs, features_count := features.length }
      (cf1, row :: pf)
    else (cf, pf)

/-! ## Harmonic-to-noise ratio (`backend/features.py`,
`extract_fault_specific_features`, lines 130-138) -/

/-- Sum of squares of a sample list (`np.sum(harmonic**2)`). -/
def sumSquares (xs : List ℚ) : ℚ := (xs.map fun x => x ^ 2).sum

/-- Embedding of the harmonic-to-noise ratio computation: the harmonic and
percussive components returned by `librosa.effects.hpss` are inputs; the
result is `some (harmonic_energy / noise_energy)` on the `noise_energy > 0`
branch and `none` for the sentinel `float('inf')` branch. -/
def harmonic_noise_ratio (harmonic percussive : List ℚ) : Option ℚ :=
  let harmonic_energy := sumSquares harmonic
  let noise_energy := sumSquares percussive
  if noise_energy > 0 then some (harmonic_energy / noise_energy)
  else none

/-! ## Denoiser (`backend/spectrograms.py`, lines 16-127) -/

/-- Complex STFT spectrum in polar form: `F` frequency bins, `T` frames,
`mag` is `np.abs(stft)` and `ph` is `np.angle(stft)` (entries outside the
`F × T` grid are irrelevant padding). -/
structure CSpec where
  F : Nat
  T : Nat
  mag : Nat → Nat → ℚ
  ph : Nat → Nat → ℚ

/-- External library interface used by the denoiser: `librosa.stft` and
`librosa.istft` at the fixed hop 512 / n_fft 2048 of the call sites (the
inverse transform consumes the polar pair `magnitude_denoised * exp(1j*phase)`),
the square root inside `np.std`, the float power `10 ** x` of the dB → linear
conversion, and `scipy.signal.medfilt(·, kernel_size=5)`. -/
structure SpecLib where
  stft : List ℚ → CSpec
  istft : CSpec → List ℚ
  sqrt : ℚ → ℚ
  pow10 : ℚ → ℚ
  medfilt5 : List ℚ → List ℚ

/-- Mean of the first `T` entries of a spectrogram row
(`np.mean(..., axis=1)`). -/
def rowMean (T : Nat) (row : Nat → ℚ) : ℚ :=
  (∑ t in Finset.range T, row t) / T

/-- Population variance of the first `T` entries of a row
(`np.std(..., axis=1) ** 2`). -/
def rowVar (T : Nat) (row : Nat → ℚ) : ℚ :=
  (∑ t in Finset.range T, (row t - rowMean T row) ^ 2) / T

/-- Number of samples of the noise-estimation segment:
`noise_duration = min(0.5, len(y) / sr * 0.1)` followed by
`noise_samples = int(sr * noise_duration)` (truncation of a nonnegative
float is the floor). -/
def noise_samples_count (n sr : Nat) : Nat :=
  (Int.floor ((sr : ℚ) * min (1/2 : ℚ) ((n : ℚ) / (sr : ℚ) * (1/10)))).toNat

/-- Embedding of `denoise_audio_spectral_gating(y, sr, noise_db_threshold)`
(lines 28-67), on its non-raising path: estimate the noise profile from the
initial clip, form the two-sigma threshold, scale by the dB factor, build
the over-subtraction mask with floor 0.1, apply it to the magnitude, keep
the phase, and invert. -/
def denoise_audio_spectral_gating (lib : SpecLib) (y : List ℚ) (sr : Nat)
    (noise_db_threshold : ℚ) : List ℚ :=
  let noise_samples := noise_samples_count y.length sr
  let noise_clip := if noise_samples > 0 then y.take noise_samples
                    else y.take (y.length / 10)
  let stft_full := lib.stft y
  let stft_noise := lib.stft noise_clip
  let magnitude := stft_full.mag
  let phase := stft_full.ph
  let noise_magnitude := stft_noise.mag
  let noise_mean : Nat → ℚ := fun f => rowMean stft_noise.T (noise_magnitude f)
  let noise_std : Nat → ℚ := fun f =>
    lib.sqrt (rowVar stft_noise.T (noise_magnitude f))
  let noise_threshold : Nat → ℚ := fun f => noise_mean f + 2 * noise_std f
  let db_factor := lib.pow10 (noise_db_threshold / 20)
  let adaptive_threshold : Nat → ℚ := fun f => noise_threshold f * db_factor
  let alpha : ℚ := 1/10
  let mask : Nat → Nat → ℚ := fun f t =>
    max ((magnitude f t - alpha * adaptive_threshold f) / magnitude f t)
        (1/10)
  let magnitude_denoised : Nat → Nat → ℚ :=
    fun f t => magnitude f t * mask f t
  lib.istft ⟨stft_full.F, stft_full.T, magnitude_denoised, phase⟩

/-- Embedding of `denoise_audio_simple_gate(y, sr, noise_db_threshold)`
(lines 73-104) on its non-raising path. -/
def denoise_audio_simple_gate (lib : SpecLib) (y : List ℚ)
    (noise_db_threshold : ℚ) : List ℚ :=
  let max_amplitude := (y.map (fun x => |x|)).foldr max 0
  let noise_amplitude := max_amplitude * lib.pow10 (-noise_db_threshold / 20)
  let gate_mask := y.map (fun x => if |x| > noise_amplitude then (1 : ℚ) else 0)
  let gate_smooth := lib.medfilt5 gate_mask
  List.zipWith (fun a b => a * b) y gate_smooth

/-- Embedding of `apply_denoising(y, sr, method, noise_db_threshold)`
(lines 106-127): dispatch on the method name, unknown methods return the
original signal. -/
def apply_denoising (lib : SpecLib) (y : List ℚ) (sr : Nat) (method : String)
    (noise_db_threshold : ℚ) : List ℚ :=
  if method = "spectral_gating" then
    denoise_audio_spectral_gating lib y sr noise_db_threshold
  else if method = "simple_gate" then
    denoise_audio_simple_gate lib y noise_db_threshold
  else y

/-- Segment length written from the wording of the spec (section 4.2): the
noise profile comes from an initial segment of duration
min(0.5 s, 10% of the duration), expressed in samples. -/
def noise_samples_spec (n sr : Nat) : Nat :=
  (Int.floor ((sr : ℚ) * min (1/2 : ℚ) ((1/10) * ((n : ℚ) / (sr : ℚ))))).toNat

/-- Modelled from the wording of the spec (section 4.2, spectral gating):
per-bin threshold = (noise_mean + 2 * noise_std) scaled by the linear factor
of the configured dB value; gain mask = max((magnitude - alpha * threshold) /
magnitude, floor) with alpha = 0.1 and floor = 0.1; mask applied to the
magnitude, original phase kept, inverse transform returned; noise statistics
taken over the initial segment of length min(0.5 s, 10% of duration). -/
def spectral_gating_spec (lib : SpecLib) (y : List ℚ) (sr : Nat) (db : ℚ) :
    List ℚ :=
  let seg := lib.stft (y.take (noise_samples_spec y.length sr))
  let full := lib.stft y
  let linear := lib.pow10 (db / 20)
  let threshold : Nat → ℚ := fun f =>
    (rowMean seg.T (seg.mag f) + 2 * lib.sqrt (rowVar seg.T (seg.mag f))) *
      linear
  lib.istft ⟨full.F, full.T,
    fun f t => full.mag f t *
      max ((full.mag f t - (1/10) * threshold f) / full.mag f t) (1/10),
    full.ph⟩

/-! ## Spectrogram Renderer (`backend/spectrograms.py`, lines 130-369)

Each per-kind generator wraps its entire matplotlib/librosa body in
`try/except`: on failure it closes the figure, logs, and RETURNS NORMALLY.
The body is external rendering work, embedded as an `Except String Unit`
outcome; the wrapped generator returns `Except.ok saved` where `saved` says
whether the PNG was written (`plt.savefig` ran), and never returns
`Except.error` — the internal handler swallows every exception. -/

/-- Embedding of `generate_mel_spectrogram(y, sr, save_path)`
(lines 130-151): the internal `except` clause makes the call return
normally even when the rendering work failed, in which case no PNG exists
at `save_path`. -/
def generate_mel_spectrogram (work : Except String Unit) :
    Except String Bool :=
  match work with
  | Except.ok _ => Except.ok true
  | Except.error _ => Except.ok false

/-- Embedding of `generate_cqt_spectrogram` (lines 153-174), same
try/except skeleton. -/
def generate_cqt_spectrogram (work : Except String Unit) :
    Except String Bool :=
  match work with
  | Except.ok _ => Except.ok true
  | Except.error _ => Except.ok false

/-- Embedding of `generate_log_stft_spectrogram` (lines 176-197), same
try/except skeleton. -/
def generate_log_stft_spectrogram (work : Except String Unit) :
    Except String Bool :=
  match work with
  | Except.ok _ => Except.ok true
  | Except.error _ => Except.ok false

/-- Embedding of `generate_wavelet_scalogram` (lines 199-222), same
try/except skeleton. -/
def generate_wavelet_scalogram (work : Except String Unit) :
    Except String Bool :=
  match work with
  | Except.ok _ => Except.ok true
  | Except.error _ => Except.ok false

/-- Embedding of the skeleton of `generate_spectral_kurtosis`
(lines 224-251); the numeric content of its body is embedded separately
below. -/
def generate_spectral_kurtosis_wrapped (work : Except String Unit) :
    Except String Bool :=
  match work with
  | Except.ok _ => Except.ok true
  | Except.error _ => Except.ok false

/-- Embedding of `generate_modulation_spectrogram` (lines 253-273), same
try/except skeleton. -/
def generate_modulation_spectrogram (work : Except String Unit) :
    Except String Bool :=
  match work with
  | Except.ok _ => Except.ok true
  | Except.error _ => Except.ok false

/-- The `spectrograms` dispatch dictionary of `generate_all_spectrograms`
(lines 316-347), in insertion order. -/
def spectrogram_functions :
    List (String × (Except String Unit → Except String Bool)) :=
  [("mel", generate_mel_spectrogram),
   ("cqt", generate_cqt_spectrogram),
   ("log_stft", generate_log_stft_spectrogram),
   ("wavelet", generate_wavelet_scalogram),
   ("spectral_kurtosis", generate_spectral_kurtosis_wrapped),
   ("modulation", generate_modulation_spectrogram)]

/-- Embedding of the per-kind loop of `generate_all_spectrograms`
(lines 350-363): `env k` is the outcome of kind `k`'s underlying rendering
work; a kind is added to `spectrogram_paths` whenever its generator call
returns normally (`try` succeeds), and skipped (`continue`) only when the
call itself raises. The entry records whether the PNG exists at the
recorded path. -/
def generate_all_spectrograms_loop (env : String → Except String Unit) :
    List (String × Bool) :=
  spectrogram_functions.foldr (fun kf acc =>
    match kf.2 (env kf.1) with
    | Except.ok saved => (kf.1, saved) :: acc
    | Except.error _ => acc) []

/-- Embedding of `generate_all_spectrograms(audio_path, session_id, file_id)`
(lines 275-369). `load` is the outcome of `librosa.load`; `denoiseStage` is
the outcome of the denoising block (lines 296-305 — its internal handlers
normally prevent failure, but any exception escaping it is caught by the
outer handler); `mkdir` is the outcome of `os.makedirs`. The outer
`try/except` turns any failure of those stages into the empty dictionary. -/
def generate_all_spectrograms (load : Except String (List ℚ × Nat))
    (denoiseStage : List ℚ → Nat → Except String (List ℚ))
    (mkdir : Except String Unit)
    (env : String → Except String Unit) : List (String × Bool) :=
  match load with
  | Except.error _ => []
  | Except.ok (y, sr) =>
    match denoiseStage y sr with
    | Except.error _ => []
    | Except.ok _ =>
      match mkdir with
      | Except.error _ => []
      | Except.ok _ => generate_all_spectrograms_loop env

/-! ## Per-file pipeline dataflow (`app.py`, lines 176-181;
`backend/features.py`, line 192; `backend/spectrograms.py`, lines 294-299) -/

/-- Signal consumed by the six renderers for one file: inside
`generate_all_spectrograms` the file at `audio_path` is loaded and, with the
default arguments `denoise=True`, `denoising_method=\x27spectral_gating\x27`
and `noise_threshold=40`, replaced by the denoised signal before the
renderers run (line 354 passes the denoised `y`). `load` maps a path to the
`librosa.load(audio_path, sr=None)` result. -/
def spectrogram_renderer_signal (lib : SpecLib)
    (load : String → List ℚ × Nat) (audio_path : String) : List ℚ :=
  apply_denoising lib (load audio_path).1 (load audio_path).2
    "spectral_gating" 40

/-- Signal consumed by the feature extractor for the same file:
`process_batch_files` calls `extract_all_features(audio_path)` (app.py line
180), which reloads the file with `librosa.load(audio_path, sr=None)`
(features.py line 192) and computes every feature from those raw samples —
no denoising function is called anywhere in `features.py`. -/
def feature_extractor_signal (load : String → List ℚ × Nat)
    (audio_path : String) : List ℚ :=
  (load audio_path).1

/-- Concrete single-bin instantiation of the library interface, used to
exhibit concrete runs: the transform stores the raw samples as the
magnitude row of a one-bin spectrum with zero phase, the inverse transform
reads that row back, the square root is evaluated at perfect squares only,
and the dB conversion returns the exact value 100 of the default
`10 ** (40 / 20)`. -/
def witLib : SpecLib :=
  { stft := fun ys => ⟨1, ys.length, fun _ t => ys.getD t 0, fun _ _ => 0⟩,
    istft := fun sp => (List.range sp.T).map (fun t => sp.mag 0 t),
    sqrt := fun x => x,
    pow10 := fun _ => 100,
    medfilt5 := fun xs => xs }

/-- Rendering-work environment in which only the mel kind fails. -/
def failMelEnv : String → Except String Unit :=
  fun k => if k = "mel" then Except.error "RuntimeError" else Except.ok ()

/-- Probe instantiation of the library interface whose inverse transform
reads back only the first masked sample, so that a run of the denoiser is
distinguishable from the raw signal by length alone. -/
def probeLib : SpecLib :=
  { stft := fun ys => ⟨1, ys.length, fun _ t => ys.getD t 0, fun _ _ => 0⟩,
    istft := fun sp => if 0 < sp.T then [sp.mag 0 0] else [],
    sqrt := fun x => x,
    pow10 := fun _ => 100,
    medfilt5 := fun xs => xs }

/-! ## Spectral kurtosis (`backend/spectrograms.py`, lines 224-251) -/

/-- The value `np.std(freq_data)` over the first `T` entries of a row:
the square root (external, parameter `s`) of the population variance. -/
def np_std_row (s : ℚ → ℚ) (T : Nat) (row : Nat → ℚ) : ℚ := s (rowVar T row)

/-- Kurtosis of one frequency row as computed in the loop body:
`np.mean(((freq_data - mean_val) / std_val) ** 4) - 3`. -/
def row_kurtosis (s : ℚ → ℚ) (T : Nat) (row : Nat → ℚ) : ℚ :=
  rowMean T (fun t => ((row t - rowMean T row) / np_std_row s T row) ^ 4) - 3

/-- One iteration of `for i in range(stft_magnitude.shape[0])` in
`generate_spectral_kurtosis`: when `np.std(freq_data) > 0`, assign the
single kurtosis value to the whole row `i` (`spectral_kurtosis[i, :] =
kurtosis_val`); otherwise leave the row as it was. -/
def sk_update (s : ℚ → ℚ) (T : Nat) (mag : Nat → Nat → ℚ)
    (m : Nat → Nat → ℚ) (i : Nat) : Nat → Nat → ℚ :=
  let freq_data := mag i
  if np_std_row s T freq_data > 0 then
    let mean_val := rowMean T freq_data
    let std_val := np_std_row s T freq_data
    let kurtosis_val :=
      rowMean T (fun t => ((freq_data t - mean_val) / std_val) ^ 4) - 3
    fun f t => if f = i then kurtosis_val else m f t
  else m

/-- The loop, starting from `np.zeros_like(stft_magnitude)` and applying
the body for `i = 0, …, k-1`. -/
def sk_loop (s : ℚ → ℚ) (T : Nat) (mag : Nat → Nat → ℚ) :
    Nat → (Nat → Nat → ℚ)
  | 0 => fun _ _ => 0
  | (i+1) => sk_update s T mag (sk_loop s T mag i) i

/-- Embedding of the numeric body of `generate_spectral_kurtosis(y, sr, …)`:
`mag` is the `F × T` magnitude matrix of
`scipy.signal.spectrogram(y, sr, nperseg=2048, noverlap=1024)` (external),
`s` the square root used by `np.std`; the result is the rendered matrix. -/
def generate_spectral_kurtosis (s : ℚ → ℚ) (F T : Nat)
    (mag : Nat → Nat → ℚ) : Nat → Nat → ℚ :=
  sk_loop s T mag F

/-! ## Feature Extractor (`backend/features.py`) -/

/-- Value stored for one feature: a rational, a machine integer, or the
float infinity sentinel. -/
inductive FeatureValue
  | q : ℚ → FeatureValue
  | n : Nat → FeatureValue
  | inf : FeatureValue

/-- Arithmetic mean of a list (`np.mean`). -/
def np_mean (xs : List ℚ) : ℚ := xs.sum / xs.length

/-- Population variance of a list (`np.std(xs) ** 2`). -/
def np_var (xs : List ℚ) : ℚ :=
  ((xs.map (fun x => (x - np_mean xs) ^ 2)).sum) / xs.length

/-- The value `np.std(xs)`: the external square root `s` of the variance. -/
def np_std (s : ℚ → ℚ) (xs : List ℚ) : ℚ := s (np_var xs)

/-- Maximum of a list (`np.max`), 0 on the empty list. -/
def np_max (xs : List ℚ) : ℚ := (xs.max?).getD 0

/-- Minimum of a list (`np.min`), 0 on the empty list. -/
def np_min (xs : List ℚ) : ℚ := (xs.min?).getD 0

/-- First index of the maximum of a list (`np.argmax`). -/
def np_argmax (xs : List ℚ) : Nat :=
  (xs.enum.foldl
    (fun best p => if p.2 > xs.getD best 0 then p.1 else best) 0)

/-- Successive differences of a list (`np.diff`). -/
def np_diff (xs : List ℚ) : List ℚ :=
  List.zipWith (fun a b => b - a) xs xs.tail

/-- Strict local maxima of one STFT frame, as collected by the inner loop
`for i in range(1, len(frame)-1): if frame[i] > frame[i-1] and
frame[i] > frame[i+1]`. -/
def frame_peaks (fr : List ℚ) : List ℚ :=
  ((List.range fr.length).filter (fun i =>
    1 ≤ i ∧ i + 1 < fr.length ∧ fr.getD i 0 > fr.getD (i-1) 0 ∧
      fr.getD i 0 > fr.getD (i+1) 0)).map (fun i => fr.getD i 0)

/-- Results of the external librosa/scipy calls made by the feature
extractor for a fixed input `(y, sr)`: each field is the value the library
returns at the fixed parameters of the call site. `s` plays the role of the
float square root shared by `np.sqrt` and `np.std`. -/
structure FeatLib where
  s : ℚ → ℚ
  zcr : List ℚ
  framed : List (List ℚ)
  skew : ℚ
  kurt : ℚ
  spectral_centroid : List ℚ
  spectral_bandwidth : List ℚ
  spectral_rolloff : List ℚ
  spectral_contrast : List ℚ
  spectral_flatness : List ℚ
  mfcc : List (List ℚ)
  chroma : List ℚ
  tonnetz : List ℚ
  piptrack : List (List ℚ × List ℚ)
  stft_frames : List (List ℚ)
  fft_freqs : List ℚ
  stft2048_bins : List (List ℚ)
  harmonic : List ℚ
  percussive : List ℚ

/-- Embedding of `extract_time_domain_features(y, sr)` (lines 12-46) as the
ordered association list of dictionary assignments. -/
def extract_time_domain_features (lib : FeatLib) (y : List ℚ) :
    List (String × FeatureValue) :=
  [("rms", FeatureValue.q (lib.s (np_mean (y.map (fun x => x ^ 2))))),
   ("energy", FeatureValue.q ((y.map (fun x => x ^ 2)).sum)),
   ("zero_crossing_rate", FeatureValue.q (np_mean lib.zcr)),
   ("mean", FeatureValue.q (np_mean y)),
   ("std", FeatureValue.q (np_std lib.s y)),
   ("skewness", FeatureValue.q lib.skew),
   ("kurtosis", FeatureValue.q lib.kurt),
   ("max_amplitude", FeatureValue.q (np_max (y.map (fun x => |x|)))),
   ("min_amplitude", FeatureValue.q (np_min y)),
   ("peak_to_peak", FeatureValue.q (np_max y - np_min y)),
   ("envelope_mean",
     FeatureValue.q (np_mean (lib.framed.map (fun fr => |np_max fr|)))),
   ("envelope_std",
     FeatureValue.q (np_std lib.s (lib.framed.map (fun fr => |np_max fr|))))]

/-- Embedding of `extract_frequency_domain_features(y, sr)` (lines 48-115):
all keys are assigned unconditionally except the two fundamental-frequency
keys, which are assigned in both branches of `if pitch_values:`. -/
def extract_frequency_domain_features (lib : FeatLib) :
    List (String × FeatureValue) :=
  [("spectral_centroid_mean", FeatureValue.q (np_mean lib.spectral_centroid)),
   ("spectral_centroid_std",
     FeatureValue.q (np_std lib.s lib.spectral_centroid)),
   ("spectral_bandwidth_mean",
     FeatureValue.q (np_mean lib.spectral_bandwidth)),
   ("spectral_bandwidth_std",
     FeatureValue.q (np_std lib.s lib.spectral_bandwidth)),
   ("spectral_rolloff_mean", FeatureValue.q (np_mean lib.spectral_rolloff)),
   ("spectral_rolloff_std",
     FeatureValue.q (np_std lib.s lib.spectral_rolloff)),
   ("spectral_contrast_mean", FeatureValue.q (np_mean lib.spectral_contrast)),
   ("spectral_contrast_std",
     FeatureValue.q (np_std lib.s lib.spectral_contrast)),
   ("spectral_flatness_mean", FeatureValue.q (np_mean lib.spectral_flatness)),
   ("spectral_flatness_std",
     FeatureValue.q (np_std lib.s lib.spectral_flatness))] ++
  ((List.range 13).flatMap (fun i =>
    [("mfcc_" ++ toString (i + 1) ++ "_mean",
       FeatureValue.q (np_mean (lib.mfcc.getD i []))),
     ("mfcc_" ++ toString (i + 1) ++ "_std",
       FeatureValue.q (np_std lib.s (lib.mfcc.getD i [])))])) ++
  [("chroma_mean", FeatureValue.q (np_mean lib.chroma)),
   ("chroma_std", FeatureValue.q (np_std lib.s lib.chroma)),
   ("tonnetz_mean", FeatureValue.q (np_mean lib.tonnetz)),
   ("tonnetz_std", FeatureValue.q (np_std lib.s lib.tonnetz))] ++
  (let pitch_values :=
    (lib.piptrack.map
      (fun col => col.1.getD (np_argmax col.2) 0)).filter (fun p => p > 0)
  if pitch_values ≠ [] then
    [("fundamental_freq_mean", FeatureValue.q (np_mean pitch_values)),
     ("fundamental_freq_std", FeatureValue.q (np_std lib.s pitch_values))]
  else
    [("fundamental_freq_mean", FeatureValue.q 0),
     ("fundamental_freq_std", FeatureValue.q 0)])

/-- Embedding of `extract_fault_specific_features(y, sr)` (lines 117-179):
the harmonic-to-noise key is assigned in both branches of the
`noise_energy > 0` test; the irregularity, low-frequency and peak keys are
assigned unconditionally with conditional-expression values. -/
def extract_fault_specific_features (lib : FeatLib) :
    List (String × FeatureValue) :=
  (if sumSquares lib.percussive > 0 then
    [("harmonic_noise_ratio",
       FeatureValue.q (sumSquares lib.harmonic / sumSquares lib.percussive))]
  else
    [("harmonic_noise_ratio", FeatureValue.inf)]) ++
  (let spectral_irregularity :=
    (lib.stft_frames.filter (fun fr => fr.length > 1)).map
      (fun fr => ((np_diff fr).map (fun d => |d|)).sum)
  [("spectral_irregularity_mean",
     if spectral_irregularity ≠ [] then
       FeatureValue.q (np_mean spectral_irregularity)
     else FeatureValue.q 0),
   ("spectral_irregularity_std",
     if spectral_irregularity ≠ [] then
       FeatureValue.q (np_std lib.s spectral_irregularity)
     else FeatureValue.q 0)]) ++
  (let magnitude_spectrum := lib.stft2048_bins.map np_mean
  let low_freq_energy :=
    (((lib.fft_freqs.zip magnitude_spectrum).filter
      (fun p => p.1 ≤ 1000)).map (fun p => p.2)).sum
  let total_energy := magnitude_spectrum.sum
  [("low_freq_energy_ratio",
     if total_energy > 0 then FeatureValue.q (low_freq_energy / total_energy)
     else FeatureValue.q 0)]) ++
  (let peaks := lib.stft_frames.flatMap frame_peaks
  [("spectral_peaks_mean",
     if peaks ≠ [] then FeatureValue.q (np_mean peaks) else FeatureValue.q 0),
   ("spectral_peaks_count", FeatureValue.n peaks.length)])

/-- Embedding of `extract_all_features(audio_path)` (lines 181-210): merge
of the three family dictionaries (whose key sets are disjoint) followed by
the three metadata assignments. -/
def extract_all_features (lib : FeatLib) (y : List ℚ) (sr : Nat) :
    List (String × FeatureValue) :=
  extract_time_domain_features lib y ++
  extract_frequency_domain_features lib ++
  extract_fault_specific_features lib ++
  [("duration", FeatureValue.q ((y.length : ℚ) / (sr : ℚ))),
   ("sample_rate", FeatureValue.n sr),
   ("n_samples", FeatureValue.n y.length)]

/-- The fixed feature schema: the 63 keys, in insertion order. -/
def feature_schema_keys : List String :=
  ["rms", "energy", "zero_crossing_rate", "mean", "std", "skewness",
   "kurtosis", "max_amplitude", "min_amplitude", "peak_to_peak",
   "envelope_mean", "envelope_std",
   "spectral_centroid_mean", "spectral_centroid_std",
   "spectral_bandwidth_mean", "spectral_bandwidth_std",
   "spectral_rolloff_mean", "spectral_rolloff_std",
   "spectral_contrast_mean", "spectral_contrast_std",
   "spectral_flatness_mean", "spectral_flatness_std",
   "mfcc_1_mean", "mfcc_1_std", "mfcc_2_mean", "mfcc_2_std",
   "mfcc_3_mean", "mfcc_3_std", "mfcc_4_mean", "mfcc_4_std",
   "mfcc_5_mean", "mfcc_5_std", "mfcc_6_mean", "mfcc_6_std",
   "mfcc_7_mean", "mfcc_7_std", "mfcc_8_mean", "mfcc_8_std",
   "mfcc_9_mean", "mfcc_9_std", "mfcc_10_mean", "mfcc_10_std",
   "mfcc_11_mean", "mfcc_11_std", "mfcc_12_mean", "mfcc_12_std",
   "mfcc_13_mean", "mfcc_13_std",
   "chroma_mean", "chroma_std", "tonnetz_mean", "tonnetz_std",
   "fundamental_freq_mean", "fundamental_freq_std",
   "harmonic_noise_ratio",
   "spectral_irregularity_mean", "spectral_irregularity_std",
   "low_freq_energy_ratio", "spectral_peaks_mean", "spectral_peaks_count",
   "duration", "sample_rate", "n_samples"]

/-- Concrete aggregator input: a complete file (directory and feature
record both present; the loaded record already holds a `filename` key, as
written by the pipeline). -/
def aggFileComplete : AggFile :=
  { original_name := "a.wav", file_id := "id1", dir_exists := true,
    has_features := true,
    features := [("rms", "1.0"), ("filename", "a.wav")],
    png_exists := fun _ => true }

/-- Concrete aggregator input: a directory that exists without a feature
record (the pipeline failed before writing `features.json`). -/
def aggFileRecordless : AggFile :=
  { original_name := "b.wav", file_id := "id2", dir_exists := true,
    has_features := false, features := [], png_exists := fun _ => false }

/-! ## Lemmas about the batch loop -/

lemma runBatchLoop_ne_nil (st : JobStatus) (fs : List FileInfo) (i : Nat) :
    runBatchLoop st fs i none ≠ [] := by
  cases fs with
  | nil => simp [runBatchLoop, clearedBy]
  | cons f fs =>
    simp only [runBatchLoop, clearedBy]
    cases f.outcome <;> simp

lemma runBatchLoop_getLast (fs : List FileInfo) : ∀ (st : JobStatus) (i : Nat),
    st.current_file = i →
    (runBatchLoop st fs i none).getLast? = some
      { status := "completed", current_file := i + fs.length,
        total_files := st.total_files,
        current_filename :=
          ((fs.getLast?.map (·.original_name)).getD st.current_filename),
        completed_files := st.completed_files ++ batchCompleted fs,
        errors := st.errors ++ batchErrors fs,
        has_end_time := true } := by
  induction fs with
  | nil =>
    intro st i hcur
    simp [runBatchLoop, clearedBy, batchCompleted, batchErrors, ← hcur]
  | cons f fs ih =>
    intro st i hcur
    have hne : ∀ st2 : JobStatus, runBatchLoop st2 fs (i + 1) none ≠ [] :=
      fun st2 => runBatchLoop_ne_nil st2 fs (i + 1)
    cases hout : f.outcome with
    | ok u =>
      simp only [runBatchLoop, clearedBy, hout, Bool.false_eq_true, if_false]
      obtain ⟨b, tl, hbt⟩ := List.exists_cons_of_ne_nil (hne _)
      rw [List.getLast?_cons_cons, hbt, List.getLast?_cons_cons, ← hbt,
        ih _ (i + 1) rfl]
      simp only [Option.some.injEq, JobStatus.mk.injEq, batchCompleted,
        batchErrors, List.filterMap_cons, hout, List.length_cons,
        List.append_assoc, List.singleton_append, true_and, and_true]
      refine ⟨by omega, ?_⟩
      cases fs with
      | nil => simp
      | cons g gs =>
        obtain ⟨x, hx⟩ : ∃ x, (g :: gs).getLast? = some x :=
          ⟨_, List.getLast?_eq_getLast_of_ne_nil (by simp)⟩
        rw [List.getLast?_cons_cons, hx]
        simp
    | error msg =>
      simp only [runBatchLoop, clearedBy, hout, Bool.false_eq_true, if_false]
      obtain ⟨b, tl, hbt⟩ := List.exists_cons_of_ne_nil (hne _)
      rw [List.getLast?_cons_cons, hbt, List.getLast?_cons_cons, ← hbt,
        ih _ (i + 1) rfl]
      simp only [Option.some.injEq, JobStatus.mk.injEq, batchCompleted,
        batchErrors, List.filterMap_cons, hout, List.length_cons,
        List.append_assoc, List.singleton_append, true_and, and_true]
      refine ⟨by omega, ?_⟩
      cases fs with
      | nil => simp
      | cons g gs =>
        obtain ⟨x, hx⟩ : ∃ x, (g :: gs).getLast? = some x :=
          ⟨_, List.getLast?_eq_getLast_of_ne_nil (by simp)⟩
        rw [List.getLast?_cons_cons, hx]
        simp

lemma runBatchLoop_length (fs : List FileInfo) : ∀ (st : JobStatus) (i : Nat),
    (runBatchLoop st fs i none).length = 2 * fs.length + 1 := by
  induction fs with
  | nil => intro st i; simp [runBatchLoop, clearedBy]
  | cons f fs ih =>
    intro st i
    simp only [runBatchLoop, clearedBy, Bool.false_eq_true, if_false]
    cases f.outcome <;> simp [ih, List.length_cons] <;> omega

lemma runBatchLoop_status (fs : List FileInfo) : ∀ (st : JobStatus) (i : Nat)
    (c : Option Nat), ∀ s ∈ runBatchLoop st fs i c,
    s.status = st.status ∨ (s.status = "completed" ∧ s.has_end_time = true) := by
  induction fs with
  | nil =>
    intro st i c s hs
    rw [runBatchLoop] at hs
    by_cases hcl : clearedBy c i = true
    · simp [hcl] at hs
    · simp only [hcl, if_false, Bool.false_eq_true, List.mem_singleton] at hs
      subst hs
      right
      exact ⟨rfl, rfl⟩
  | cons f fs ih =>
    intro st i c s hs
    rw [runBatchLoop] at hs
    by_cases hcl : clearedBy c i = true
    · simp [hcl] at hs
    · simp only [hcl, if_false, Bool.false_eq_true] at hs
      cases hout : f.outcome with
      | ok u =>
        rw [hout] at hs
        simp only [List.mem_cons] at hs
        rcases hs with rfl | rfl | hs
        · left; rfl
        · left; rfl
        · rcases ih _ (i + 1) c s hs with h | h
          · left; exact h
          · right; exact h
      | error msg =>
        rw [hout] at hs
        simp only [List.mem_cons] at hs
        rcases hs with rfl | rfl | hs
        · left; rfl
        · left; rfl
        · rcases ih _ (i + 1) c s hs with h | h
          · left; exact h
          · right; exact h

lemma runBatchLoop_invariant (fs : List FileInfo) : ∀ (st : JobStatus)
    (i : Nat) (c : Option Nat), st.current_file = i →
    st.total_files = i + fs.length → st.status = "processing" →
    List.Chain' (fun a b => a.current_file ≤ b.current_file)
      (st :: runBatchLoop st fs i c) ∧
    ∀ s ∈ runBatchLoop st fs i c,
      s.current_file ≤ s.total_files ∧ s.total_files = st.total_files ∧
      (s.status = "processing" ∨
        (s.status = "completed" ∧ s.current_file = st.total_files)) := by
  induction fs with
  | nil =>
    intro st i c hcur htot hst
    simp only [List.length_nil, Nat.add_zero] at htot
    rw [runBatchLoop]
    by_cases hcl : clearedBy c i = true
    · simp [hcl]
    · simp only [hcl, if_false, Bool.false_eq_true]
      refine ⟨List.chain'_cons.2 ⟨le_refl _, List.chain'_singleton _⟩, ?_⟩
      intro s hs
      rw [List.mem_singleton] at hs
      subst hs
      refine ⟨?_, rfl, Or.inr ⟨rfl, ?_⟩⟩
      · show st.current_file ≤ st.total_files
        omega
      · show st.current_file = st.total_files
        omega
  | cons f fs ih =>
    intro st i c hcur htot hst
    simp only [List.length_cons] at htot
    rw [runBatchLoop]
    by_cases hcl : clearedBy c i = true
    · simp [hcl]
    · simp only [hcl, if_false, Bool.false_eq_true]
      cases hout : f.outcome with
      | ok u =>
        have hih := ih { st with current_file := i + 1,
                                 current_filename := f.original_name,
                                 completed_files :=
                                   st.completed_files ++ [f.original_name] }
          (i + 1) c rfl (by show st.total_files = i + 1 + fs.length; omega) hst
        refine ⟨?_, ?_⟩
        · refine List.chain'_cons.2 ⟨by show st.current_file ≤ i + 1; omega, ?_⟩
          exact List.chain'_cons.2 ⟨le_refl _, hih.1⟩
        · intro s hs
          simp only [List.mem_cons] at hs
          rcases hs with rfl | rfl | hs
          · exact ⟨by show i + 1 ≤ st.total_files; omega, rfl, Or.inl hst⟩
          · exact ⟨by show i + 1 ≤ st.total_files; omega, rfl, Or.inl hst⟩
          · rcases hih.2 s hs with ⟨h1, h2, h3⟩
            exact ⟨h1, h2, h3⟩
      | error msg =>
        have hih := ih { st with current_file := i + 1,
                                 current_filename := f.original_name,
                                 errors :=
                                   st.errors ++ [mkErrorMsg f.original_name msg] }
          (i + 1) c rfl (by show st.total_files = i + 1 + fs.length; omega) hst
        refine ⟨?_, ?_⟩
        · refine List.chain'_cons.2 ⟨by show st.current_file ≤ i + 1; omega, ?_⟩
          exact List.chain'_cons.2 ⟨le_refl _, hih.1⟩
        · intro s hs
          simp only [List.mem_cons] at hs
          rcases hs with rfl | rfl | hs
          · exact ⟨by show i + 1 ≤ st.total_files; omega, rfl, Or.inl hst⟩
          · exact ⟨by show i + 1 ≤ st.total_files; omega, rfl, Or.inl hst⟩
          · rcases hih.2 s hs with ⟨h1, h2, h3⟩
            exact ⟨h1, h2, h3⟩

lemma runBatchLoop_reach_total (fs : List FileInfo) : ∀ (st : JobStatus)
    (i : Nat), st.status = "processing" → fs ≠ [] →
    ∃ s ∈ runBatchLoop st fs i none,
      s.current_file = i + fs.length ∧ s.status = "processing" := by
  induction fs with
  | nil => intro st i _ hne; exact absurd rfl hne
  | cons f fs ih =>
    intro st i hst _
    rw [runBatchLoop]
    simp only [clearedBy, Bool.false_eq_true, if_false]
    cases hfs : fs with
    | nil =>
      cases hout : f.outcome with
      | ok u =>
        refine ⟨_, List.mem_cons_self _ _, ?_, hst⟩
        simp
      | error msg =>
        refine ⟨_, List.mem_cons_self _ _, ?_, hst⟩
        simp
    | cons g gs =>
      rw [← hfs]
      cases hout : f.outcome with
      | ok u =>
        obtain ⟨s, hmem, hcur, hstat⟩ :=
          ih { st with current_file := i + 1,
                       current_filename := f.original_name,
                       completed_files :=
                         st.completed_files ++ [f.original_name] }
            (i + 1) hst (by simp [hfs])
        refine ⟨s, ?_, ?_, hstat⟩
        · exact List.mem_cons_of_mem _ (List.mem_cons_of_mem _ hmem)
        · rw [hcur]; simp [List.length_cons]; omega
      | error msg =>
        obtain ⟨s, hmem, hcur, hstat⟩ :=
          ih { st with current_file := i + 1,
                       current_filename := f.original_name,
                       errors :=
                         st.errors ++ [mkErrorMsg f.original_name msg] }
            (i + 1) hst (by simp [hfs])
        refine ⟨s, ?_, ?_, hstat⟩
        · exact List.mem_cons_of_mem _ (List.mem_cons_of_mem _ hmem)
        · rw [hcur]; simp [List.length_cons]; omega

lemma handle_batch_results_count (files : List AggFile) :
    (handle_batch_results files).1.length =
      files.countP (fun f => f.dir_exists && f.has_features) := by
  induction files with
  | nil => simp [handle_batch_results]
  | cons f fs ih =>
    simp only [handle_batch_results, List.countP_cons]
    cases hd : f.dir_exists <;> cases hf : f.has_features <;>
      simp [hd, hf, ih]

lemma handle_batch_results_rows (files : List AggFile) :
    (handle_batch_results files).2.length =
      files.countP (fun f => f.dir_exists) := by
  induction files with
  | nil => simp [handle_batch_results]
  | cons f fs ih =>
    simp only [handle_batch_results, List.countP_cons]
    cases hd : f.dir_exists <;> simp [hd, ih]

lemma handle_batch_results_recordless_row (files : List AggFile)
    (g : AggFile) (hg : g ∈ files) (hd : g.dir_exists = true)
    (hf : g.has_features = false) :
    ∃ row ∈ (handle_batch_results files).2,
      row.filename = g.original_name ∧ row.features_count = 0 := by
  induction files with
  | nil => simp at hg
  | cons f fs ih =>
    rcases List.mem_cons.mp hg with rfl | hgfs
    · have hrow : (handle_batch_results (g :: fs)).2 =
          { filename := g.original_name, file_id := g.file_id,
            spectrograms := spectrogram_types.filter (fun k => g.png_exists k),
            features_count := 0 } :: (handle_batch_results fs).2 := by
        simp [handle_batch_results, hd, hf]
      rw [hrow]
      exact ⟨_, List.mem_cons_self _ _, rfl, rfl⟩
    · obtain ⟨row, hmem, h1, h2⟩ := ih hgfs
      cases hfd : f.dir_exists with
      | false =>
        have h2eq : (handle_batch_results (f :: fs)).2 =
            (handle_batch_results fs).2 := by
          simp [handle_batch_results, hfd]
        rw [h2eq]
        exact ⟨row, hmem, h1, h2⟩
      | true =>
        have h2eq : (handle_batch_results (f :: fs)).2 =
            { filename := f.original_name, file_id := f.file_id,
              spectrograms :=
                spectrogram_types.filter (fun k => f.png_exists k),
              features_count :=
                (if f.has_features then
                  dict_insert f.features "filename" f.original_name
                else []).length } :: (handle_batch_results fs).2 := by
          simp [handle_batch_results, hfd]
        rw [h2eq]
        exact ⟨row, List.mem_cons_of_mem _ hmem, h1, h2⟩

/-- C2: for every batch whose controller-level bookkeeping succeeds (and
whose session is never cleared), the final status snapshot written by
`process_batch_files` has status `"completed"` with an end time, its error
list holds exactly one message per failed file (each built from that file's
display name), its completed list holds the successful files, the trace has
the full `2·n + 1` snapshots (two per file — no fail-fast — plus the
terminal update), and no snapshot ever carries status `"error"`. -/
theorem batch_job_reaches_completed (files : List FileInfo) (total : Nat) :
    (process_batch_files (initialJobStatus total) files true none).getLast? =
      some { status := "completed", current_file := files.length,
             total_files := total,
             current_filename :=
               ((files.getLast?.map (·.original_name)).getD "Initializing..."),
             completed_files := batchCompleted files,
             errors := batchErrors files,
             has_end_time := true } ∧
    (process_batch_files (initialJobStatus total) files true none).length =
      2 * files.length + 1 ∧
    ∀ s ∈ process_batch_files (initialJobStatus total) files true none,
      s.status ≠ "error" := by
  refine ⟨?_, ?_, ?_⟩
  · rw [process_batch_files, if_pos rfl,
      runBatchLoop_getLast files (initialJobStatus total) 0 rfl]
    simp [initialJobStatus]
  · rw [process_batch_files, if_pos rfl]
    exact runBatchLoop_length files (initialJobStatus total) 0
  · intro s hs
    rw [process_batch_files, if_pos rfl] at hs
    rcases runBatchLoop_status files (initialJobStatus total) 0 none s hs with
      h | ⟨h, _⟩
    · rw [h]; simp [initialJobStatus]
    · rw [h]; simp

/-- Witness for `batch_job_reaches_completed` at a concrete two-file batch
with one success and one failure. -/
theorem batch_job_reaches_completed_witness :
    ({ status := "processing", current_file := 1, total_files := 2,
       current_filename := "a.wav", completed_files := [], errors := [],
       has_end_time := false } : JobStatus).status ≠ "error" :=
  (batch_job_reaches_completed
    [⟨"a.wav", Except.ok ()⟩, ⟨"b.wav", Except.error "boom"⟩] 2).2.2
    _ (by decide)

/-- C4 as stated is false: in a one-file batch, the very first status
snapshot written by the worker already has current index = total = 1 while
the status is still the non-terminal `"processing"`, so the index equals
the total strictly before any terminal status. -/
theorem batch_index_equals_total_before_terminal :
    ¬ (∀ s ∈ initialJobStatus 1 ::
          process_batch_files (initialJobStatus 1)
            [⟨"a.wav", Except.ok ()⟩] true none,
        s.current_file = s.total_files →
          s.status = "completed" ∨ s.status = "error") := by
  intro h
  have := h { status := "processing", current_file := 1, total_files := 1,
              current_filename := "a.wav", completed_files := [],
              errors := [], has_end_time := false }
    (by decide) rfl
  rcases this with h1 | h1 <;> simp at h1

/-- C4 amended: throughout any batch run the current file index is
monotonically non-decreasing and never exceeds the total file count, and a
snapshot with terminal status `"completed"` has index = total; however the
index already equals the total while the last file is still being processed
(status `"processing"`), i.e. before the terminal update — not only after
it. -/
theorem batch_index_monotone (files : List FileInfo) (ok : Bool)
    (c : Option Nat) :
    List.Chain' (fun a b => a.current_file ≤ b.current_file)
      (initialJobStatus files.length ::
        process_batch_files (initialJobStatus files.length) files ok c) ∧
    (∀ s ∈ process_batch_files (initialJobStatus files.length) files ok c,
      s.current_file ≤ s.total_files ∧
      (s.status = "completed" → s.current_file = files.length)) ∧
    (files ≠ [] →
      ∃ s ∈ process_batch_files (initialJobStatus files.length) files
          true none,
        s.current_file = files.length ∧ s.status = "processing") := by
  have hinv := runBatchLoop_invariant files (initialJobStatus files.length)
    0 c rfl (by simp [initialJobStatus]) rfl
  refine ⟨?_, ?_, ?_⟩
  · cases ok with
    | true =>
      rw [process_batch_files, if_pos rfl]
      exact hinv.1
    | false =>
      rw [process_batch_files]
      simp only [Bool.false_eq_true, if_false]
      by_cases hcl : clearedBy c 0 = true
      · simp only [hcl, if_true]
        exact List.chain'_singleton _
      · simp only [hcl, if_false, Bool.false_eq_true]
        exact List.chain'_cons.2 ⟨le_refl _, List.chain'_singleton _⟩
  · cases ok with
    | true =>
      rw [process_batch_files, if_pos rfl]
      intro s hs
      rcases hinv.2 s hs with ⟨h1, h2, h3⟩
      refine ⟨h1, ?_⟩
      intro hc
      rcases h3 with h3 | ⟨_, h3⟩
      · rw [h3] at hc; simp at hc
      · rw [h3]; simp [initialJobStatus]
    | false =>
      rw [process_batch_files]
      simp only [Bool.false_eq_true, if_false]
      by_cases hcl : clearedBy c 0 = true
      · simp [hcl]
      · simp only [hcl, if_false, Bool.false_eq_true]
        intro s hs
        rw [List.mem_singleton] at hs
        subst hs
        constructor
        · show (0 : Nat) ≤ files.length
          omega
        · intro hc
          simp [initialJobStatus] at hc
  · intro hne
    rw [process_batch_files, if_pos rfl]
    obtain ⟨s, hmem, h1, h2⟩ := runBatchLoop_reach_total files
      (initialJobStatus files.length) 0 rfl hne
    exact ⟨s, hmem, by omega, h2⟩

/-- Witness for `batch_index_monotone` at a concrete one-file batch. -/
theorem batch_index_monotone_witness :
    ∃ s ∈ process_batch_files (initialJobStatus 1)
        [⟨"a.wav", Except.ok ()⟩] true none,
      s.current_file = 1 ∧ s.status = "processing" :=
  (batch_index_monotone [⟨"a.wav", Except.ok ()⟩] true none).2.2
    (by simp)

/-- C5 is false under the vocabulary of the spec, whose Result Aggregator
produces a combined feature table and a per-file summary list: with one
complete file (N = 1) plus one record-less directory, the per-file summary
list built by `handle_batch_results` has 2 entries, not N = 1 — the
record-less file appears in it (with zero features) instead of being
omitted. Only the combined feature table omits it. -/
theorem aggregator_summary_includes_recordless :
    (handle_batch_results [aggFileComplete, aggFileRecordless]).2.length = 2 ∧
    ∃ row ∈ (handle_batch_results [aggFileComplete, aggFileRecordless]).2,
      row.filename = "b.wav" ∧ row.features_count = 0 := by
  decide

/-- C5 amended: the aggregation is a total function (it never fails), and
the record-less file is omitted from the combined feature table, which has
exactly one row per complete file; the per-file summary list, however,
still includes the record-less directory as an entry with zero features,
so it has N + 1 entries. -/
theorem aggregator_recordless_omitted_from_table_only (A B : List AggFile)
    (g : AggFile)
    (hA : ∀ f ∈ A, f.dir_exists = true ∧ f.has_features = true)
    (hB : ∀ f ∈ B, f.dir_exists = true ∧ f.has_features = true)
    (hgd : g.dir_exists = true) (hgf : g.has_features = false) :
    (handle_batch_results (A ++ g :: B)).1.length = A.length + B.length ∧
    (handle_batch_results (A ++ g :: B)).2.length = A.length + B.length + 1 ∧
    ∃ row ∈ (handle_batch_results (A ++ g :: B)).2,
      row.filename = g.original_name ∧ row.features_count = 0 := by
  refine ⟨?_, ?_, ?_⟩
  · rw [handle_batch_results_count, List.countP_append, List.countP_cons]
    have hAc : A.countP (fun f => f.dir_exists && f.has_features) =
        A.length :=
      List.countP_eq_length.2 fun f hf => by
        rcases hA f hf with ⟨h1, h2⟩
        simp [h1, h2]
    have hBc : B.countP (fun f => f.dir_exists && f.has_features) =
        B.length :=
      List.countP_eq_length.2 fun f hf => by
        rcases hB f hf with ⟨h1, h2⟩
        simp [h1, h2]
    simp [hAc, hBc, hgd, hgf]
  · rw [handle_batch_results_rows, List.countP_append, List.countP_cons]
    have hAc : A.countP (fun f => f.dir_exists) = A.length :=
      List.countP_eq_length.2 fun f hf => by
        rcases hA f hf with ⟨h1, _⟩
        simp [h1]
    have hBc : B.countP (fun f => f.dir_exists) = B.length :=
      List.countP_eq_length.2 fun f hf => by
        rcases hB f hf with ⟨h1, _⟩
        simp [h1]
    simp [hAc, hBc, hgd]
    omega
  · exact handle_batch_results_recordless_row (A ++ g :: B) g (by simp)
      hgd hgf

/-- Witness for `aggregator_recordless_omitted_from_table_only`: one
complete file plus one record-less directory gives one combined-feature
row and two summary entries. -/
theorem aggregator_recordless_omitted_from_table_only_witness :
    (handle_batch_results [aggFileComplete, aggFileRecordless]).1.length =
      1 ∧
    (handle_batch_results [aggFileComplete, aggFileRecordless]).2.length =
      2 ∧
    ∃ row ∈ (handle_batch_results [aggFileComplete, aggFileRecordless]).2,
      row.filename = aggFileRecordless.original_name ∧
        row.features_count = 0 := by
  have := aggregator_recordless_omitted_from_table_only
    [aggFileComplete] [] aggFileRecordless
    (by intro f hf; rw [List.mem_singleton] at hf; subst hf
        exact ⟨rfl, rfl⟩)
    (by intro f hf; simp at hf) rfl rfl
  simpa using this

/-- C8: the harmonic-to-noise ratio equals harmonic energy divided by
percussive energy whenever the percussive energy is strictly positive, and
is the infinite sentinel (`none` in this embedding, the float infinity
in the source) exactly when the percussive energy is zero — sums of
squares can never be negative, so the `> 0` test of the source is exactly
the complement of `= 0`. -/
theorem harmonic_noise_ratio_infinite_iff_zero (h p : List ℚ) :
    harmonic_noise_ratio h p =
      if sumSquares p = 0 then none
      else some (sumSquares h / sumSquares p) := by
  unfold harmonic_noise_ratio
  have hnn : 0 ≤ sumSquares p := by
    apply List.sum_nonneg
    intro x hx
    rw [List.mem_map] at hx
    obtain ⟨y, _, rfl⟩ := hx
    exact sq_nonneg y
  by_cases hz : sumSquares p = 0
  · simp [hz]
  · have hpos : 0 < sumSquares p := lt_of_le_of_ne hnn (Ne.symm hz)
    simp [hz, hpos]

lemma map_fst_keyed {α β : Type} (g : α → β) (l : List α) :
    ((l.map (fun k => (k, g k))).map Prod.fst) = l := by
  induction l with
  | nil => rfl
  | cons a l ih => simp [ih]

lemma generate_all_spectrograms_loop_spec (env : String → Except String Unit) :
    generate_all_spectrograms_loop env =
      spectrogram_types.map (fun k =>
        (k, match env k with
            | Except.ok _ => true
            | Except.error _ => false)) := by
  unfold generate_all_spectrograms_loop spectrogram_functions spectrogram_types
  simp only [List.foldr_cons, List.foldr_nil, List.map_cons, List.map_nil]
  cases env "mel" <;> cases env "cqt" <;> cases env "log_stft" <;>
    cases env "wavelet" <;> cases env "spectral_kurtosis" <;>
    cases env "modulation" <;> rfl

/-- C6: the spectral-gating denoiser of the source coincides, whenever the
noise-estimation segment is nonempty (the only situation the spec
describes), with the procedure stated by the spec: noise profile over the
initial segment of length min(0.5 s, 10% of duration); per-bin threshold
noise_mean + 2 * noise_std scaled by the linear dB factor; gain mask
max((magnitude - 0.1 * threshold) / magnitude, 0.1) applied to the
magnitude; phase kept; inverse transform returned. -/
theorem spectral_gating_matches_spec (lib : SpecLib) (y : List ℚ) (sr : Nat)
    (db : ℚ) (h : 0 < noise_samples_count y.length sr) :
    denoise_audio_spectral_gating lib y sr db =
      spectral_gating_spec lib y sr db := by
  have hsamp : noise_samples_spec y.length sr =
      noise_samples_count y.length sr := by
    unfold noise_samples_spec noise_samples_count
    rw [mul_comm ((1 : ℚ)/10)]
  unfold denoise_audio_spectral_gating spectral_gating_spec
  have hnoise : lib.stft (if noise_samples_count y.length sr > 0 then
        List.take (noise_samples_count y.length sr) y
      else List.take (y.length / 10) y) =
      lib.stft (List.take (noise_samples_spec y.length sr) y) :=
    congrArg lib.stft (by rw [if_pos h, hsamp])
  simp only [hnoise]

/-- Witness for `spectral_gating_matches_spec`: a 20-sample constant signal
at sample rate 2 has a 1-sample noise segment (10 seconds of audio, 10% is
over the 0.5 s cap, and int(2 * 0.5) = 1 > 0). -/
theorem spectral_gating_matches_spec_witness :
    denoise_audio_spectral_gating witLib (List.replicate 20 1) 2 40 =
      spectral_gating_spec witLib (List.replicate 20 1) 2 40 :=
  spectral_gating_matches_spec witLib (List.replicate 20 1) 2 40 (by
    unfold noise_samples_count
    simp only [List.length_replicate]
    norm_num [min_def])

/-- C1 is false on the code: with a concrete library instantiation and a
loader returning a constant 10-sample signal, the denoised signal handed to
the renderers differs from the raw reloaded samples the feature extractor
receives (here already by length), so the signal the FeatureSet is computed
from is not the Denoiser output shared with the renderers. -/
theorem features_not_denoised_counterexample :
    feature_extractor_signal (fun _ => (List.replicate 10 1, 10)) "a.wav" ≠
      spectrogram_renderer_signal probeLib
        (fun _ => (List.replicate 10 1, 10)) "a.wav" := by
  intro h
  have hlen := congrArg List.length h
  simp [feature_extractor_signal, spectrogram_renderer_signal,
    apply_denoising, denoise_audio_spectral_gating, probeLib] at hlen

/-- C1 amended: in the per-file pipeline, the Spectrogram Renderer consumes
the spectral-gating Denoiser output of the loaded samples (default method
and threshold 40 dB), but the Feature Extractor reloads the file and
consumes the raw samples unchanged — the denoised signal is not shared
with it. -/
theorem features_use_raw_samples (lib : SpecLib)
    (load : String → List ℚ × Nat) (audio_path : String) :
    feature_extractor_signal load audio_path = (load audio_path).1 ∧
    spectrogram_renderer_signal lib load audio_path =
      denoise_audio_spectral_gating lib (load audio_path).1
        (load audio_path).2 40 := by
  refine ⟨rfl, ?_⟩
  unfold spectrogram_renderer_signal apply_denoising
  rw [if_pos rfl]

/-- C3 is false on the code: when the mel rendering work fails, the
internal except clause of `generate_mel_spectrogram` swallows the
exception, the call returns normally, and the loop still inserts the key
`"mel"` into the returned mapping (with no PNG on disk) — the kind is NOT
omitted, refuting that the mapping contains a key only for successfully
rendered kinds. -/
theorem failed_kind_still_in_mapping :
    ("mel", false) ∈ generate_all_spectrograms_loop failMelEnv ∧
    failMelEnv "mel" = Except.error "RuntimeError" :=
  ⟨by decide, rfl⟩

/-- C3 amended: a failure of one kind's rendering work is caught inside
that kind's generator and aborts nothing — every one of the six kinds is
always a key of the returned mapping, in order, and a kind's PNG exists if
and only if its own rendering work succeeded, independently of the other
kinds; a kind would be omitted only if the generator call itself raised,
which the internal handlers prevent. -/
theorem render_failure_caught_not_omitted (env : String → Except String Unit) :
    (generate_all_spectrograms_loop env).map Prod.fst = spectrogram_types ∧
    ∀ k b, (k, b) ∈ generate_all_spectrograms_loop env →
      (b = true ↔ (env k).isOk = true) := by
  rw [generate_all_spectrograms_loop_spec]
  constructor
  · exact map_fst_keyed _ _
  · intro k b hmem
    rw [List.mem_map] at hmem
    obtain ⟨k0, hk0, heq⟩ := hmem
    injection heq with h1 h2
    subst h1
    subst h2
    cases henv : env k0 <;> simp [henv, Except.isOk, Except.toBool]

/-- Witness for `render_failure_caught_not_omitted` at the environment in
which only mel fails. -/
theorem render_failure_caught_not_omitted_witness :
    (false = true ↔ (failMelEnv "mel").isOk = true) :=
  (render_failure_caught_not_omitted failMelEnv).2 "mel" false (by decide)

/-- C10: `generate_all_spectrograms` is total — it returns a mapping for
every combination of stage outcomes, never propagating an exception; the
result is either the empty mapping or has exactly the six kinds as keys,
and a failure of loading, of the denoising block, or of directory setup
yields the empty mapping (a decode failure surfaces as zero artifacts, not
as an error). -/
theorem generate_all_spectrograms_never_raises
    (load : Except String (List ℚ × Nat))
    (dn : List ℚ → Nat → Except String (List ℚ))
    (mkdir : Except String Unit) (env : String → Except String Unit) :
    (generate_all_spectrograms load dn mkdir env = [] ∨
      (generate_all_spectrograms load dn mkdir env).map Prod.fst =
        spectrogram_types) ∧
    (∀ e, load = Except.error e →
      generate_all_spectrograms load dn mkdir env = []) ∧
    (∀ y sr e, load = Except.ok (y, sr) → dn y sr = Except.error e →
      generate_all_spectrograms load dn mkdir env = []) ∧
    (∀ e, mkdir = Except.error e →
      generate_all_spectrograms load dn mkdir env = []) := by
  refine ⟨?_, ?_, ?_, ?_⟩
  · cases load with
    | error e => exact Or.inl rfl
    | ok p =>
      obtain ⟨y, sr⟩ := p
      cases hdn : dn y sr with
      | error e => exact Or.inl (by simp [generate_all_spectrograms, hdn])
      | ok y2 =>
        cases mkdir with
        | error e => exact Or.inl (by simp [generate_all_spectrograms, hdn])
        | ok u =>
          refine Or.inr ?_
          simp only [generate_all_spectrograms, hdn]
          rw [generate_all_spectrograms_loop_spec]
          exact map_fst_keyed _ _
  · intro e he
    subst he
    rfl
  · intro y sr e hl hd
    subst hl
    simp [generate_all_spectrograms, hd]
  · intro e he
    subst he
    cases load with
    | error e2 => rfl
    | ok p =>
      obtain ⟨y, sr⟩ := p
      cases hdn : dn y sr <;> simp [generate_all_spectrograms, hdn]

/-- Witness for `generate_all_spectrograms_never_raises`: an undecodable
file yields the empty mapping. -/
theorem generate_all_spectrograms_never_raises_witness :
    generate_all_spectrograms (Except.error "DecodeError")
      (fun y _ => Except.ok y) (Except.ok ()) (fun _ => Except.ok ()) = [] :=
  (generate_all_spectrograms_never_raises (Except.error "DecodeError")
    (fun y _ => Except.ok y) (Except.ok ()) (fun _ => Except.ok ())).2.1
    "DecodeError" rfl

lemma sk_loop_spec (s : ℚ → ℚ) (T : Nat) (mag : Nat → Nat → ℚ) :
    ∀ (k f t : Nat), sk_loop s T mag k f t =
      if f < k ∧ np_std_row s T (mag f) > 0 then row_kurtosis s T (mag f)
      else 0 := by
  intro k
  induction k with
  | zero =>
    intro f t
    simp [sk_loop]
  | succ k ih =>
    intro f t
    show sk_update s T mag (sk_loop s T mag k) k f t = _
    unfold sk_update
    simp only []
    by_cases hstd : np_std_row s T (mag k) > 0
    · rw [if_pos hstd]
      by_cases hfk : f = k
      · subst hfk
        rw [if_pos rfl, if_pos ⟨Nat.lt_succ_self f, hstd⟩]
        rfl
      · rw [if_neg hfk, ih f t]
        refine if_congr ?_ rfl rfl
        constructor
        · rintro ⟨h1, h2⟩
          exact ⟨Nat.lt_succ_of_lt h1, h2⟩
        · rintro ⟨h1, h2⟩
          exact ⟨by omega, h2⟩
    · rw [if_neg hstd, ih f t]
      refine if_congr ?_ rfl rfl
      constructor
      · rintro ⟨h1, h2⟩
        exact ⟨Nat.lt_succ_of_lt h1, h2⟩
      · rintro ⟨h1, h2⟩
        have hfk : f ≠ k := fun hh => hstd (hh ▸ h2)
        exact ⟨by omega, h2⟩

/-- C7: in the rendered spectral-kurtosis matrix, every in-range row `f`
holds, at every time column, the single value
`mean(((x − mean) / std)^4) − 3` of that row when the standard deviation
`np.std` of the row is strictly positive, and 0 when it is not; in
particular the matrix is row-constant in time. -/
theorem spectral_kurtosis_row_constant (s : ℚ → ℚ) (F T : Nat)
    (mag : Nat → Nat → ℚ) (f t u : Nat) (hf : f < F) :
    (generate_spectral_kurtosis s F T mag f t =
      if np_std_row s T (mag f) > 0 then row_kurtosis s T (mag f) else 0) ∧
    generate_spectral_kurtosis s F T mag f t =
      generate_spectral_kurtosis s F T mag f u := by
  unfold generate_spectral_kurtosis
  rw [sk_loop_spec, sk_loop_spec]
  constructor
  · by_cases h : np_std_row s T (mag f) > 0 <;> simp [hf, h]
  · rfl

/-- Witness for `spectral_kurtosis_row_constant` on a concrete 1 × 2
matrix whose single row is (0, 1). -/
theorem spectral_kurtosis_row_constant_witness :
    (generate_spectral_kurtosis (fun x => x) 1 2 (fun _ t => (t : ℚ)) 0 0 =
      if np_std_row (fun x => x) 2 (fun t => (t : ℚ)) > 0 then
        row_kurtosis (fun x => x) 2 (fun t => (t : ℚ))
      else 0) ∧
    generate_spectral_kurtosis (fun x => x) 1 2 (fun _ t => (t : ℚ)) 0 0 =
      generate_spectral_kurtosis (fun x => x) 1 2 (fun _ t => (t : ℚ)) 0 1 :=
  spectral_kurtosis_row_constant (fun x => x) 1 2 (fun _ t => (t : ℚ)) 0 0 1
    (by decide)

/-- C9: for every input and every behaviour of the external library calls,
the feature record holds exactly the 63 keys of the fixed schema, in the
same order — the input-dependent branches (no voiced frames, no peaks,
empty irregularity list, zero denominators) change values only, never the
key set. -/
theorem feature_schema_fixed (lib : FeatLib) (y : List ℚ) (sr : Nat) :
    (extract_all_features lib y sr).map Prod.fst = feature_schema_keys := by
  unfold extract_all_features extract_time_domain_features
    extract_frequency_domain_features extract_fault_specific_features
    feature_schema_keys
  simp only [List.map_append]
  split <;> split <;> rfl

end MotorFault
